import Mathlib

/-!
Verification of the fastime cached-clock library (src/fastime.go).

The Go code is shallowly embedded: the `fastime` struct becomes a Lean
structure, `time.Time` becomes a pair of an (unbounded) nanosecond count
since the Unix epoch and a fixed-offset location, and the atomic fields
become plain structure fields updated by pure state-transforming
functions.  The sequential semantics of the public operations and of the
daemon loop's events is captured by a labelled transition system
(`Ev` / `applyEv` / `Reachable`).  A second, byte-level model (`HState` /
`storeH`) refines the formatted-output publication of `store`
(src/fastime.go lines 108-114) with explicit backing arrays, to reason
about the aliasing between the published byte slice and the pooled
scratch buffers.
-/

set_option autoImplicit false

namespace Fastime

/-- Model of a Go `*time.Location`: a fixed offset in seconds east of UTC.
`time.Local` is modelled as the fixed location `localLoc`. -/
structure Location where
  offset : Int
deriving DecidableEq

/-- Model of `time.Local` (the process-local zone), as a fixed offset. -/
def localLoc : Location := ⟨0⟩

/-- Model of a Go `time.Time`: nanoseconds since the Unix epoch (UTC),
together with the location the value is bound to (`time.Time.In`). -/
structure GoTime where
  nanos : Int
  loc : Location
deriving DecidableEq

/-- Two's-complement wrap-around of an unbounded integer into `int64`. -/
def wrap64 (x : Int) : Int := (x + 2 ^ 63) % 2 ^ 64 - 2 ^ 63

/-- The low 32 bits of the two's-complement representation of an integer,
as a natural number below `2^32`.  This models the little-endian
reinterpretation `*(*uint32)(unsafe.Pointer(&x))` performed in `store`
(on the supported little-endian targets it reads exactly the low word). -/
def low32 (x : Int) : Nat := (x % (2 ^ 32 : Int)).toNat

/-- Model of Go `time.Time.Unix()`: whole seconds since the epoch
(the stored nanosecond count floor-divided by `1e9`), as an `int64` value. -/
def goUnix (t : GoTime) : Int := wrap64 (t.nanos.fdiv 1000000000)

/-- Model of Go `time.Time.UnixNano()`: nanoseconds since the epoch as an
`int64` value (wrapping on overflow, as Go's does). -/
def goUnixNano (t : GoTime) : Int := wrap64 t.nanos

/-- Model of Go `time.Time.Add(d)`: advance the instant by `d` nanoseconds,
keeping the location. -/
def goAdd (t : GoTime) (d : Int) : GoTime := ⟨t.nanos + d, t.loc⟩

/-! ### Civil-date computation for the formatter

Go's `time.Time.AppendFormat` converts the instant to a civil date/time in
the value's location before rendering.  We model the conversion with the
standard days-from-epoch to year/month/day algorithm (proleptic Gregorian,
as Go uses). -/

def nsPerDay : Int := 86400000000000

def localNanos (t : GoTime) : Int := t.nanos + t.loc.offset * 1000000000

def dayNumber (t : GoTime) : Int := (localNanos t).fdiv nsPerDay

def secOfDay (t : GoTime) : Nat := ((localNanos t % nsPerDay).fdiv 1000000000).toNat

/-- Convert a day count since 1970-01-01 to (year, month, day) in the
proleptic Gregorian calendar. -/
def civilFromDays (z0 : Int) : Int × Nat × Nat :=
  let z := z0 + 719468
  let era : Int := z.fdiv 146097
  let doe : Int := z - era * 146097
  let yoe : Int := (doe - doe.fdiv 1460 + doe.fdiv 36524 - doe.fdiv 146096).fdiv 365
  let y : Int := yoe + era * 400
  let doy : Int := doe - (365 * yoe + yoe.fdiv 4 - yoe.fdiv 100)
  let mp : Int := (5 * doy + 2).fdiv 153
  let d : Nat := (doy - (153 * mp + 2).fdiv 5 + 1).toNat
  let m : Nat := (if mp < 10 then mp + 3 else mp - 9).toNat
  (if m ≤ 2 then y + 1 else y, m, d)

def yearOf (t : GoTime) : Int := (civilFromDays (dayNumber t)).1

def monthOf (t : GoTime) : Nat := (civilFromDays (dayNumber t)).2.1

def dayOf (t : GoTime) : Nat := (civilFromDays (dayNumber t)).2.2

def hourOf (t : GoTime) : Nat := secOfDay t / 3600

def minuteOf (t : GoTime) : Nat := secOfDay t % 3600 / 60

def secondOf (t : GoTime) : Nat := secOfDay t % 60

/-- Decimal digits of a natural number, left-padded with zeros to width `w`. -/
def padDigits (n w : Nat) : List Char :=
  let s := (Nat.repr n).toList
  List.replicate (w - s.length) '0' ++ s

/-- Model of Go's `appendInt` used by the formatter: sign, then the decimal
digits zero-padded to width `w`. -/
def intPad (x : Int) (w : Nat) : List Char :=
  if x < 0 then '-' :: padDigits x.natAbs w else padDigits x.natAbs w

/-- Rendering of the `Z07:00` layout token: `Z` for a zero offset,
otherwise a signed `hh:mm` offset. -/
def tzColon (t : GoTime) : List Char :=
  let off := t.loc.offset
  if off = 0 then ['Z']
  else
    let a := off.natAbs
    (if off < 0 then '-' else '+') ::
      (padDigits (a / 3600) 2 ++ ':' :: padDigits (a % 3600 / 60) 2)

/-- Model of the layout scan of Go `time.Time.AppendFormat`, faithful for
the layout-token subset `2006`, `01`, `02`, `15`, `04`, `05`, `1`, `2` and
`Z07:00`; every other byte of the layout is copied literally (as Go does
for non-token bytes). -/
def fmtChunks (t : GoTime) : List Char → List Char
  | '2' :: '0' :: '0' :: '6' :: rest => intPad (yearOf t) 4 ++ fmtChunks t rest
  | '0' :: '1' :: rest => padDigits (monthOf t) 2 ++ fmtChunks t rest
  | '0' :: '2' :: rest => padDigits (dayOf t) 2 ++ fmtChunks t rest
  | '0' :: '4' :: rest => padDigits (minuteOf t) 2 ++ fmtChunks t rest
  | '0' :: '5' :: rest => padDigits (secondOf t) 2 ++ fmtChunks t rest
  | '1' :: '5' :: rest => padDigits (hourOf t) 2 ++ fmtChunks t rest
  | '1' :: rest => (Nat.repr (monthOf t)).toList ++ fmtChunks t rest
  | '2' :: rest => (Nat.repr (dayOf t)).toList ++ fmtChunks t rest
  | 'Z' :: '0' :: '7' :: ':' :: '0' :: '0' :: rest => tzColon t ++ fmtChunks t rest
  | c :: rest => c :: fmtChunks t rest
  | [] => []

/-- Model of Go `t.AppendFormat(dst[:0], form)`: the bytes of `t` rendered
with layout `form` (the destination starts empty, so the result is exactly
the rendering). -/
def appendFormat (t : GoTime) (form : String) : List Char :=
  fmtChunks t form.toList

/-- The Go constant `time.RFC3339`, the default format. -/
def rfc3339 : String := "2006-01-02T15:04:05Z07:00"

/-! ### The `fastime` struct (src/fastime.go lines 30-44)

Each atomic field becomes a plain field; the buffer pool is modelled by
the list of capacities of the pooled buffers (the byte-level aliasing of
pooled buffers is modelled separately below).  `cancelSet` records whether
the `cancel` handle is non-nil, `cancelled` whether the active daemon
context has been cancelled, and the ghost flag `loopAlive` whether the
daemon goroutine spawned by `StartTimerD` is still executing its loop. -/
structure fastime where
  uut : Nat
  uunt : Nat
  dur : Int
  ut : Int
  unt : Int
  correctionDur : Int
  running : Bool
  t : GoTime
  ft : List Char
  format : String
  location : Location
  cancelSet : Bool
  cancelled : Bool
  loopAlive : Bool
  pool : List Nat
deriving DecidableEq

/-- `f.pool.Get()`: take the first pooled buffer, or, when the pool is
empty, a new buffer whose capacity is the current format's length
(the `pool.New` closure in `newFastime`, src/fastime.go lines 75-79).
Returns the acquired buffer's capacity and the rest of the pool. -/
def poolGet (f : fastime) : Nat × List Nat :=
  match f.pool with
  | [] => (f.format.length, [])
  | c :: r => (c, r)

/-- The capacity of the scratch buffer at the moment the formatted bytes
are written in `store` (src/fastime.go lines 110-112): `buf.Grow(len(form))`
is called only when `len(form) > buf.Cap()`, and `bytes.Buffer.Grow` on an
empty buffer reallocates to capacity `2*cap + n`. -/
def grownCap (cap n : Nat) : Nat := if n > cap then 2 * cap + n else cap

/-- `store` (src/fastime.go lines 100-116): publish the whole snapshot for
instant `t` — the structured value, its 64-bit Unix second and nanosecond
derivations, their low-32-bit truncations, and the rendering under the
current format — and cycle the scratch buffer through the pool. -/
def store (f : fastime) (t : GoTime) : fastime :=
  let ut := goUnix t
  let unt := goUnixNano t
  let got := poolGet f
  { f with
    t := t
    ut := ut
    unt := unt
    uut := low32 ut
    uunt := low32 unt
    ft := appendFormat t f.format
    pool := got.2 ++ [grownCap got.1 f.format.length] }

/-- `Now` (src/fastime.go lines 145-147). -/
def Now (f : fastime) : GoTime := f.t

/-- `UnixNow` (src/fastime.go lines 159-161). -/
def UnixNow (f : fastime) : Int := f.ut

/-- `UnixUNow` (src/fastime.go lines 164-166). -/
def UnixUNow (f : fastime) : Nat := f.uut

/-- `UnixNanoNow` (src/fastime.go lines 169-171). -/
def UnixNanoNow (f : fastime) : Int := f.unt

/-- `UnixUNanoNow` (src/fastime.go lines 174-176). -/
def UnixUNanoNow (f : fastime) : Nat := f.uunt

/-- `FormattedNow` (src/fastime.go lines 179-181). -/
def FormattedNow (f : fastime) : List Char := f.ft

/-- `IsDaemonRunning` (src/fastime.go lines 118-120). -/
def IsDaemonRunning (f : fastime) : Bool := f.running

/-- `GetFormat` (src/fastime.go lines 126-128). -/
def GetFormat (f : fastime) : String := f.format

/-- `GetLocation` (src/fastime.go lines 122-124). -/
def GetLocation (f : fastime) : Location := f.location

/-- Modelled from the spec: the platform file defining the private method
`now()` is not under src/ (only its callers are).  The spec defines a
refresh as "a real clock read" bound to the configured location, so a
clock read `clock` (nanoseconds) yields that instant in the instance's
current location. -/
def now (f : fastime) (clock : Int) : GoTime := ⟨clock, f.location⟩

/-- `update` (src/fastime.go lines 92-94): store the previously published
instant advanced by the stored tick interval; no clock read occurs (the
function takes no clock input). -/
def update (f : fastime) : fastime := store f (goAdd (Now f) f.dur)

/-- `refresh` (src/fastime.go lines 96-98): store a fresh clock read. -/
def refresh (f : fastime) (clock : Int) : fastime := store f (now f clock)

/-- `SetFormat` (src/fastime.go lines 138-142): publish the new format,
then synchronously refresh with a clock read `clock`. -/
def SetFormat (f : fastime) (form : String) (clock : Int) : fastime :=
  refresh { f with format := form } clock

/-- `SetLocation` (src/fastime.go lines 131-135): publish the new
location, then synchronously refresh with a clock read `clock`. -/
def SetLocation (f : fastime) (l : Location) (clock : Int) : fastime :=
  refresh { f with location := l } clock

/-- `Stop` (src/fastime.go lines 150-156): when the daemon is running,
invoke the cancellation handle (the active context becomes cancelled) and
reset the tick interval to zero; otherwise do nothing. -/
def Stop (f : fastime) : fastime :=
  if f.running then { f with cancelled := true, dur := 0 } else f

/-- The synchronous part of `StartTimerD` (src/fastime.go lines 184-191):
stop a running daemon, refresh synchronously, and install a fresh
cancellable context.  The goroutine body runs asynchronously and is
modelled by the events `daemonStartEv`/`tick`/`correct`/`doneEv`. -/
def StartTimerD (f : fastime) (clock : Int) : fastime :=
  let f1 := if f.running then Stop f else f
  { refresh f1 clock with cancelSet := true, cancelled := false }

/-- `newFastime` (src/fastime.go lines 51-90): the zero-value/initial
fields, the pool primed with one buffer of capacity `len(time.RFC3339)`,
and the initial empty published `ft`, followed by the constructor's
synchronous `refresh` with clock read `clock`. -/
def newFastime (clock : Int) : fastime :=
  refresh
    { uut := 2 ^ 32 - 1
      uunt := 2 ^ 32 - 1
      dur := 0
      ut := 2 ^ 63 - 1
      unt := 2 ^ 63 - 1
      correctionDur := 100000000
      running := false
      t := ⟨0, localLoc⟩
      ft := []
      format := rfc3339
      location := localLoc
      cancelSet := false
      cancelled := false
      loopAlive := false
      pool := [rfc3339.length] } clock

/-! ### Events and reachability

One event per externally triggered operation or daemon-loop step.  The
clock reads performed by refreshes are inputs of the events. -/

inductive Ev where
  | tick
  | correct (clock : Int)
  | setFormatEv (form : String) (clock : Int)
  | setLocationEv (l : Location) (clock : Int)
  | stopEv
  | startEv (clock : Int)
  | daemonStartEv (d : Int)
  | doneEv
deriving DecidableEq

/-- Effect of one event on the state.  `tick` is the daemon's cheap
update (src/fastime.go line 206), `correct` the drift-correcting refresh
(line 215), `daemonStartEv d` the head of the goroutine body
(lines 193-195: publish `running := true` and the tick interval `d`), and
`doneEv` the `ct.Done()` branch (lines 200-204: publish
`running := false` and exit the loop). -/
def applyEv (f : fastime) : Ev → fastime
  | .tick => update f
  | .correct clock => refresh f clock
  | .setFormatEv form clock => SetFormat f form clock
  | .setLocationEv l clock => SetLocation f l clock
  | .stopEv => Stop f
  | .startEv clock => StartTimerD f clock
  | .daemonStartEv d => { f with running := true, dur := d, loopAlive := true }
  | .doneEv => { f with running := false, loopAlive := false }

/-- Which events are possible in a state: daemon-loop events require the
loop to be alive, the `Done` branch requires the context to be cancelled,
and the goroutine body starts only after `StartTimerD` installed a fresh
(uncancelled) context. -/
def evOK (f : fastime) : Ev → Bool
  | .tick => f.loopAlive
  | .correct _ => f.loopAlive
  | .daemonStartEv _ => f.cancelSet && !f.cancelled && !f.loopAlive
  | .doneEv => f.loopAlive && f.cancelled
  | _ => true

/-- States reachable from a freshly constructed instance by possible
events. -/
inductive Reachable : fastime → Prop where
  | init (clock : Int) : Reachable (newFastime clock)
  | step {f : fastime} (e : Ev) : Reachable f → evOK f e = true →
      Reachable (applyEv f e)

/-- The cross-field consistency of a published snapshot: the integer and
formatted fields are all derived from the published instant and the
published format. -/
abbrev Consistent (f : fastime) : Prop :=
  f.ut = goUnix f.t ∧ f.unt = goUnixNano f.t ∧
  f.uut = low32 f.ut ∧ f.uunt = low32 f.unt ∧
  f.ft = appendFormat f.t f.format

/-- Run a sequence of events from a state. -/
def runEvs (f : fastime) (es : List Ev) : fastime := es.foldl applyEv f

/-- An engine trace between `startTimer` and `stop`: only the daemon
loop's two step kinds occur — cheap updates and drift-correcting
refreshes — and, per the monotone-real-clock assumption, every clock
value read by a drift correction is at least the instant published when
the read happens. -/
def engineTrace (f : fastime) : List Ev → Bool
  | [] => true
  | Ev.tick :: es => engineTrace (applyEv f Ev.tick) es
  | Ev.correct clock :: es =>
      decide (f.t.nanos ≤ clock) && engineTrace (applyEv f (Ev.correct clock)) es
  | _ :: _ => false

/-- A daemon state used in several concrete scenarios: a freshly
constructed instance on which `StartTimerD` has been called (with clock
read 0) and whose goroutine has started with tick interval 5. -/
def c6state : fastime :=
  applyEv (applyEv (newFastime 0) (Ev.startEv 0)) (Ev.daemonStartEv 5)

/-- A 13-token layout, each token `1` (month without padding); its
rendering at a month ≥ 10 has 26 bytes, twice its own length. -/
def fmt13 : String := "1111111111111"

/-- A freshly constructed instance whose format field was just replaced by
`fmt13` (the state on which `SetFormat(fmt13)`'s synchronous refresh
performs its `store`). -/
def c7state : fastime := { newFastime 0 with format := fmt13 }

/-! ### Byte-level model of the formatted-output publication

`HState` refines the formatting part of `store` (src/fastime.go lines
108-114): `heap` maps array identifiers to byte-array contents (an
array's capacity is its length in the heap), `pool` holds the array
identifiers of the pooled scratch buffers, and the published `formatted`
slice is the pair of a backing-array identifier and a length, exactly as
a Go slice header aliases its backing array. -/

/-- Replace the array stored at identifier `i`. -/
def updateH (h : Nat → List Char) (i : Nat) (a : List Char) : Nat → List Char :=
  fun j => if j = i then a else h j

structure HState where
  heap : Nat → List Char
  nextId : Nat
  pool : List Nat
  ftId : Nat
  ftLen : Nat

/-- Dereference a slice header against the current heap: the first `len`
bytes of the backing array. -/
def readSliceAt (h : Nat → List Char) (i len : Nat) : List Char := (h i).take len

/-- Read the currently published `formatted` slice. -/
def readFT (s : HState) : List Char := readSliceAt s.heap s.ftId s.ftLen

/-- Byte-level model of src/fastime.go lines 108-114: acquire a scratch
buffer from the pool (or a fresh one of capacity `len(form)`), grow it to
a fresh backing array when `len(form)` exceeds its capacity, write the
rendered bytes over the array in place when they fit its capacity
(leaving any residual old bytes beyond the new length) or into a freshly
allocated array when they do not (Go `append` reallocating), publish the
resulting slice header, and return the buffer to the pool. -/
def storeH (s : HState) (t : GoTime) (form : String) : HState :=
  let acq :=
    match s.pool with
    | [] => (s.nextId, ([] : List Nat),
        updateH s.heap s.nextId (List.replicate form.length ' '), s.nextId + 1)
    | i :: r => (i, r, s.heap, s.nextId)
  let bid0 := acq.1
  let rest := acq.2.1
  let heap0 := acq.2.2.1
  let nid0 := acq.2.2.2
  let cap0 := (heap0 bid0).length
  let grown :=
    if form.length > cap0 then
      (nid0, updateH heap0 nid0 (List.replicate (2 * cap0 + form.length) ' '),
        nid0 + 1)
    else (bid0, heap0, nid0)
  let bid1 := grown.1
  let heap1 := grown.2.1
  let nid1 := grown.2.2
  let cap1 := (heap1 bid1).length
  let content := appendFormat t form
  let written :=
    if content.length ≤ cap1 then
      (bid1, updateH heap1 bid1 (content ++ (heap1 bid1).drop content.length), nid1)
    else (nid1, updateH heap1 nid1 content, nid1 + 1)
  { heap := written.2.1
    nextId := written.2.2
    pool := rest ++ [bid1]
    ftId := written.1
    ftLen := content.length }

/-- A concrete instant in December 1970 (day 334 of 1970, rendered month
`12`). -/
def t9dec : GoTime := ⟨28857600000000000, localLoc⟩

/-- A concrete instant on 1970-03-01 (rendered month `3`). -/
def t9mar : GoTime := ⟨5097600000000000, localLoc⟩

/-- A byte-level state with one pooled buffer of capacity 25 (the buffer
primed by `newFastime` for the default `time.RFC3339` format). -/
def h9zero : HState :=
  { heap := updateH (fun _ => []) 0 (List.replicate 25 ' ')
    nextId := 1
    pool := [0]
    ftId := 0
    ftLen := 0 }

/-- The state after a refresh at the December instant under layout `1`:
publishes the slice (array 0, length 2) holding `12`. -/
def h9one : HState := storeH h9zero t9dec "1"

/-- The state after the following refresh at the March instant under
layout `1`: reuses pooled array 0 in place and publishes (array 0,
length 1) holding `3`. -/
def h9two : HState := storeH h9one t9mar "1"

/-! ### Theorems -/

theorem consistent_store (f : fastime) (t : GoTime) : Consistent (store f t) :=
  ⟨rfl, rfl, rfl, rfl, rfl⟩

theorem reachable_consistent {f : fastime} (h : Reachable f) : Consistent f := by
  induction h with
  | init clock => exact consistent_store _ _
  | step e hr hok ih =>
    cases e with
    | tick => exact consistent_store _ _
    | correct clock => exact consistent_store _ _
    | setFormatEv form clock => exact consistent_store _ _
    | setLocationEv l clock => exact consistent_store _ _
    | stopEv =>
      show Consistent (Stop _)
      unfold Stop
      split
      · exact ih
      · exact ih
    | startEv clock => exact consistent_store _ _
    | daemonStartEv d => exact ih
    | doneEv => exact ih

theorem update_dur (f : fastime) : (update f).dur = f.dur := rfl

theorem refresh_dur (f : fastime) (clock : Int) : (refresh f clock).dur = f.dur := rfl

theorem goAdd_zero (t : GoTime) : goAdd t 0 = t := by
  cases t with
  | mk n l => simp [goAdd]

/-! ### Claim C1 -/

/-- C1: in every reachable state, all snapshot fields are derived from the
same instant — `UnixNow()` equals `Now().Unix()`, `UnixNanoNow()` equals
`Now().UnixNano()`, and `FormattedNow()` equals `Now()` rendered with the
current format string; no field is recomputed without recomputing the
whole snapshot together in one `store` operation. -/
theorem C1_snapshot_fields_consistent (f : fastime) (h : Reachable f) :
    UnixNow f = goUnix (Now f) ∧ UnixNanoNow f = goUnixNano (Now f) ∧
    FormattedNow f = appendFormat (Now f) (GetFormat f) := by
  obtain ⟨h1, h2, _, _, h5⟩ := reachable_consistent h
  exact ⟨h1, h2, h5⟩

/-- Witness for C1 at the freshly constructed instance. -/
theorem C1_snapshot_fields_consistent_witness :
    UnixNow (newFastime 0) = goUnix (Now (newFastime 0)) ∧
    UnixNanoNow (newFastime 0) = goUnixNano (Now (newFastime 0)) ∧
    FormattedNow (newFastime 0) =
      appendFormat (Now (newFastime 0)) (GetFormat (newFastime 0)) :=
  C1_snapshot_fields_consistent (newFastime 0) (Reachable.init 0)

/-! ### Claim C2 -/

/-- C2: for every reachable snapshot state the 32-bit compact accessors
equal the 64-bit accessors reduced modulo `2^32` (the low 32 bits of the
two's-complement representation). -/
theorem C2_compact_is_mod_2_32 (f : fastime) (h : Reachable f) :
    UnixUNow f = (UnixNow f % (2 ^ 32 : Int)).toNat ∧
    UnixUNanoNow f = (UnixNanoNow f % (2 ^ 32 : Int)).toNat := by
  obtain ⟨_, _, h3, h4, _⟩ := reachable_consistent h
  exact ⟨h3, h4⟩

/-- Witness for C2 at a freshly constructed instance. -/
theorem C2_compact_is_mod_2_32_witness :
    UnixUNow (newFastime 1) = (UnixNow (newFastime 1) % (2 ^ 32 : Int)).toNat ∧
    UnixUNanoNow (newFastime 1) =
      (UnixNanoNow (newFastime 1) % (2 ^ 32 : Int)).toNat :=
  C2_compact_is_mod_2_32 (newFastime 1) (Reachable.init 1)

/-! ### Claim C3 -/

/-- C3: immediately after `SetFormat(form)` (resp. `SetLocation(l)`)
returns, `FormattedNow()` is the refreshed instant rendered with the newly
set configuration: each setter performs a synchronous refresh (with clock
read `clock`), so no output produced under the old configuration remains
published. -/
theorem C3_setters_refresh_formatted (f : fastime) (form : String)
    (l : Location) (clock : Int) :
    FormattedNow (SetFormat f form clock) =
      appendFormat ⟨clock, GetLocation f⟩ form ∧
    FormattedNow (SetLocation f l clock) =
      appendFormat ⟨clock, l⟩ (GetFormat f) :=
  ⟨rfl, rfl⟩

/-! ### Claim C4 -/

/-- C4: the cheap-update step stores, as the new snapshot instant, exactly
the previously published instant advanced by the stored tick interval (in
nanoseconds); `update` takes no clock input, so no real clock is read. -/
theorem C4_cheap_update_adds_interval (f : fastime) :
    Now (update f) = ⟨(Now f).nanos + f.dur, (Now f).loc⟩ :=
  rfl

/-! ### Claim C5 -/

/-- C5: `Stop()` on a non-running instance is a no-op leaving every field
unchanged (in particular the cancellation handle is not invoked); on a
running instance it signals cancellation and resets the stored tick
interval to zero; and `Stop` is idempotent. -/
theorem C5_stop_noop_and_idempotent (f : fastime) :
    (f.running = false → Stop f = f) ∧
    (f.running = true → Stop f = { f with cancelled := true, dur := 0 }) ∧
    Stop (Stop f) = Stop f := by
  cases hb : f.running with
  | false => simp [Stop, hb]
  | true => simp [Stop, hb]

/-- Witness for C5 on concrete states: the constructed instance is not
running, so `Stop` leaves it unchanged, and `Stop` is idempotent there. -/
theorem C5_stop_noop_and_idempotent_witness :
    Stop (newFastime 0) = newFastime 0 ∧
    Stop (Stop (newFastime 0)) = Stop (newFastime 0) :=
  ⟨(C5_stop_noop_and_idempotent (newFastime 0)).1 rfl,
    (C5_stop_noop_and_idempotent (newFastime 0)).2.2⟩

/-! ### Claim C6 (corrected) -/

/-- Counterexample to C6 as stated: on the concrete running daemon state
`c6state` (constructed by possible events, as the `evOK` conjuncts show),
`Stop()` returns with `IsDaemonRunning()` still `true` — the `running`
flag is only cleared by the goroutine's `ct.Done()` branch, which runs
asynchronously — and a drift-correction step racing with cancellation is
still possible after `Stop()` returns and does change `Now()`. -/
theorem C6_stop_immediacy_counterexample :
    evOK (newFastime 0) (Ev.startEv 0) = true ∧
    evOK (applyEv (newFastime 0) (Ev.startEv 0)) (Ev.daemonStartEv 5) = true ∧
    IsDaemonRunning c6state = true ∧
    IsDaemonRunning (Stop c6state) = true ∧
    evOK (Stop c6state) (Ev.correct 999) = true ∧
    Now (applyEv (Stop c6state) (Ev.correct 999)) ≠ Now (Stop c6state) := by
  decide

/-- C6 amended: after `Stop()` on a running instance whose daemon loop is
alive, the `Done` branch is enabled; once the loop observes cancellation
(executes that branch), `IsDaemonRunning()` returns false and no further
engine step (cheap update or drift correction) of the stopped loop is
possible, so the published snapshot no longer changes. -/
theorem C6_stop_cooperative (f : fastime) (hr : f.running = true)
    (hl : f.loopAlive = true) :
    evOK (Stop f) Ev.doneEv = true ∧
    IsDaemonRunning (applyEv (Stop f) Ev.doneEv) = false ∧
    evOK (applyEv (Stop f) Ev.doneEv) Ev.tick = false ∧
    (∀ clock, evOK (applyEv (Stop f) Ev.doneEv) (Ev.correct clock) = false) := by
  have hs : Stop f = { f with cancelled := true, dur := 0 } := by
    simp [Stop, hr]
  rw [hs]
  exact ⟨by simp [evOK, hl], rfl, by simp [applyEv, evOK], fun clock => by
    simp [applyEv, evOK]⟩

/-- Witness for the amended C6 at the concrete running daemon state. -/
theorem C6_stop_cooperative_witness :
    (c6state.running = true ∧ c6state.loopAlive = true) ∧
    (evOK (Stop c6state) Ev.doneEv = true ∧
      IsDaemonRunning (applyEv (Stop c6state) Ev.doneEv) = false ∧
      evOK (applyEv (Stop c6state) Ev.doneEv) Ev.tick = false ∧
      (∀ clock, evOK (applyEv (Stop c6state) Ev.doneEv) (Ev.correct clock) = false)) :=
  ⟨⟨by decide, by decide⟩, C6_stop_cooperative c6state (by decide) (by decide)⟩

/-! ### Claim C7 (corrected) -/

/-- Counterexample to C7 as stated: during the `store` performed by
`SetFormat(fmt13)` on a freshly constructed instance (state `c7state`),
at a December instant, the capacity ensured for the scratch buffer before
writing is 25 (the pooled buffer's capacity, not grown since
`len(format) = 13 ≤ 25`) while the rendered output has 26 bytes — the
code ensures capacity at least `len(format)`, not the rendered length.
The formatted slice is still published correctly because Go's `append`
reallocates. -/
theorem C7_capacity_counterexample :
    grownCap (poolGet c7state).1 (GetFormat c7state).length <
      (appendFormat (now c7state 28857600000000000) (GetFormat c7state)).length ∧
    FormattedNow (SetFormat (newFastime 0) fmt13 28857600000000000) =
      appendFormat ⟨28857600000000000, localLoc⟩ fmt13 := by
  decide

/-- C7 amended: for every state and instant, the `store` operation
acquires a buffer from the pool, ensures its capacity is at least the
length of the *format string* (growing it if necessary) before writing,
and returns the buffer to the pool on its (single) exit path; the
rendered output may exceed the ensured capacity, in which case the write
reallocates and the pooled buffer keeps its capacity. -/
theorem C7_buffer_pool_discipline (f : fastime) (t : GoTime) :
    (GetFormat f).length ≤ grownCap (poolGet f).1 (GetFormat f).length ∧
    (store f t).pool =
      (poolGet f).2 ++ [grownCap (poolGet f).1 (GetFormat f).length] := by
  constructor
  · unfold grownCap
    split
    · omega
    · omega
  · rfl

/-! ### Claim C8 -/

/-- C8: after `startTimer(interval)` with a non-negative stored interval,
the published instant is monotonically non-decreasing across any engine
trace until `stop`: each cheap update adds the non-negative tick interval
and each drift correction replaces the instant with a (monotone) clock
read, so no step moves the published instant backwards. -/
theorem C8_now_monotone (f : fastime) (es : List Ev) (hd : 0 ≤ f.dur)
    (ht : engineTrace f es = true) :
    (Now f).nanos ≤ (Now (runEvs f es)).nanos := by
  induction es generalizing f with
  | nil => exact le_refl _
  | cons e es ih =>
    cases e with
    | tick =>
      have h1 : (Now f).nanos ≤ (Now (applyEv f Ev.tick)).nanos := by
        show f.t.nanos ≤ f.t.nanos + f.dur
        exact le_add_of_nonneg_right hd
      have ht2 : engineTrace (applyEv f Ev.tick) es = true := ht
      exact le_trans h1 (ih (applyEv f Ev.tick) hd ht2)
    | correct clock =>
      have hsplit : decide (f.t.nanos ≤ clock) = true ∧
          engineTrace (applyEv f (Ev.correct clock)) es = true := by
        simpa [engineTrace, Bool.and_eq_true] using ht
      have h1 : (Now f).nanos ≤ (Now (applyEv f (Ev.correct clock))).nanos := by
        show f.t.nanos ≤ clock
        exact of_decide_eq_true hsplit.1
      exact le_trans h1 (ih (applyEv f (Ev.correct clock)) hd hsplit.2)
    | setFormatEv form clock => simp [engineTrace] at ht
    | setLocationEv l clock => simp [engineTrace] at ht
    | stopEv => simp [engineTrace] at ht
    | startEv clock => simp [engineTrace] at ht
    | daemonStartEv d => simp [engineTrace] at ht
    | doneEv => simp [engineTrace] at ht

/-- Witness for C8: a concrete two-step engine trace (one cheap update at
tick interval 7, one drift correction reading clock 100) from a concrete
started state. -/
theorem C8_now_monotone_witness :
    0 ≤ (applyEv (newFastime 0) (Ev.daemonStartEv 7)).dur ∧
    engineTrace (applyEv (newFastime 0) (Ev.daemonStartEv 7))
      [Ev.tick, Ev.correct 100] = true ∧
    (Now (applyEv (newFastime 0) (Ev.daemonStartEv 7))).nanos ≤
      (Now (runEvs (applyEv (newFastime 0) (Ev.daemonStartEv 7))
        [Ev.tick, Ev.correct 100])).nanos :=
  ⟨by decide, by decide,
    C8_now_monotone (applyEv (newFastime 0) (Ev.daemonStartEv 7))
      [Ev.tick, Ev.correct 100] (by decide) (by decide)⟩

/-! ### Claim C9 (corrected) -/

/-- Counterexample to C9 as stated: under layout `1`, a refresh at the
December instant publishes the slice (array 0, length 2) reading `12`;
the next refresh reuses pooled array 0 in place and publishes (array 0,
length 1) reading `3`.  A reader that loaded the first slice header and
dereferences it after (or while) the second store writes observes `32` —
a torn byte sequence that is the rendering of neither published
instant. -/
theorem C9_torn_read_counterexample :
    readFT h9one = ['1', '2'] ∧
    h9two.pool = [0] ∧
    readFT h9two = ['3'] ∧
    readSliceAt h9two.heap h9one.ftId h9one.ftLen = ['3', '2'] ∧
    readSliceAt h9two.heap h9one.ftId h9one.ftLen ≠ appendFormat t9dec "1" ∧
    readSliceAt h9two.heap h9one.ftId h9one.ftLen ≠ appendFormat t9mar "1" := by
  decide

/-- C9 amended: the published slice header always denotes, at the moment
`store` publishes it, the complete rendering of the stored instant under
the active format — dereferenced against the heap as left by that same
`store`, it reads exactly the rendering, for every state, instant and
format.  The guarantee is only as-of-publication: a header retained
across a later store that reuses the same pooled backing array can read
torn bytes, as the counterexample shows. -/
theorem C9_published_slice_complete (s : HState) (t : GoTime) (form : String) :
    readFT (storeH s t form) = appendFormat t form := by
  unfold storeH readFT readSliceAt
  cases hp : s.pool with
  | nil =>
    simp only []
    split
    · split
      · simp only [updateH, if_pos rfl]
        exact List.take_left _ _
      · simp only [updateH, if_pos rfl]
        exact List.take_length _
    · split
      · simp only [updateH, if_pos rfl]
        exact List.take_left _ _
      · simp only [updateH, if_pos rfl]
        exact List.take_length _
  | cons i r =>
    simp only []
    split
    · split
      · simp only [updateH, if_pos rfl]
        exact List.take_left _ _
      · simp only [updateH, if_pos rfl]
        exact List.take_length _
    · split
      · simp only [updateH, if_pos rfl]
        exact List.take_left _ _
      · simp only [updateH, if_pos rfl]
        exact List.take_length _

/-! ### Claim C10 -/

/-- C10: when the stored tick duration is zero, the cheap update is an
identity on the published time values — it stores `Now()` advanced by
zero, so `Now`, `UnixNow`, `UnixNanoNow`, `UnixUNow` and `UnixUNanoNow`
are unchanged; in particular a tick processed after `Stop()` has reset the
duration to zero does not advance the published time. -/
theorem C10_zero_dur_update_identity (f : fastime) (hc : Consistent f) :
    (f.dur = 0 →
      Now (update f) = Now f ∧ UnixNow (update f) = UnixNow f ∧
      UnixNanoNow (update f) = UnixNanoNow f ∧
      UnixUNow (update f) = UnixUNow f ∧
      UnixUNanoNow (update f) = UnixUNanoNow f) ∧
    (f.running = true →
      Now (update (Stop f)) = Now f ∧
      UnixNow (update (Stop f)) = UnixNow f ∧
      UnixNanoNow (update (Stop f)) = UnixNanoNow f ∧
      UnixUNow (update (Stop f)) = UnixUNow f ∧
      UnixUNanoNow (update (Stop f)) = UnixUNanoNow f) := by
  obtain ⟨h1, h2, h3, h4, h5⟩ := hc
  constructor
  · intro hd
    have he : goAdd (Now f) f.dur = f.t := by rw [hd]; exact goAdd_zero f.t
    refine ⟨?_, ?_, ?_, ?_, ?_⟩
    · show goAdd (Now f) f.dur = f.t
      exact he
    · show goUnix (goAdd (Now f) f.dur) = f.ut
      rw [he, h1]
    · show goUnixNano (goAdd (Now f) f.dur) = f.unt
      rw [he, h2]
    · show low32 (goUnix (goAdd (Now f) f.dur)) = f.uut
      rw [he, ← h1, ← h3]
    · show low32 (goUnixNano (goAdd (Now f) f.dur)) = f.uunt
      rw [he, ← h2, ← h4]
  · intro hr
    have hs : Stop f = { f with cancelled := true, dur := 0 } := by
      simp [Stop, hr]
    rw [hs]
    have he : goAdd f.t (0 : Int) = f.t := goAdd_zero f.t
    refine ⟨?_, ?_, ?_, ?_, ?_⟩
    · show goAdd f.t (0 : Int) = f.t
      exact he
    · show goUnix (goAdd f.t (0 : Int)) = f.ut
      rw [he, h1]
    · show goUnixNano (goAdd f.t (0 : Int)) = f.unt
      rw [he, h2]
    · show low32 (goUnix (goAdd f.t (0 : Int))) = f.uut
      rw [he, ← h1, ← h3]
    · show low32 (goUnixNano (goAdd f.t (0 : Int))) = f.uunt
      rw [he, ← h2, ← h4]

/-- Witness for C10 at a freshly constructed instance (whose stored tick
duration is zero). -/
theorem C10_zero_dur_update_identity_witness :
    Consistent (newFastime 2) ∧ (newFastime 2).dur = 0 ∧
    Now (update (newFastime 2)) = Now (newFastime 2) ∧
    UnixNow (update (newFastime 2)) = UnixNow (newFastime 2) :=
  ⟨consistent_store _ _, rfl,
    ((C10_zero_dur_update_identity (newFastime 2) (consistent_store _ _)).1 rfl).1,
    ((C10_zero_dur_update_identity (newFastime 2) (consistent_store _ _)).1 rfl).2.1⟩

end Fastime
